import Mathlib

/-!
Shallow embedding of `libraries/chain/protocol/account.cpp` (Graphene chain
protocol, account operations): name grammar, cheap-name classifier, options
validation, operation validation and fee calculation, together with proofs
of the behavioural properties of these functions.

Conventions of the embedding:
* C++ `std::string` becomes `List Char`; character comparisons are on code
  points via `Char.toNat`.
* `FC_ASSERT`-style validation becomes a `Bool`-valued function (`true` =
  the function returns normally, `false` = some assertion throws).
* Machine integers (`share_type`, `uint16_t`, ...) become `Int` / `Nat`;
  none of the verified properties involve overflow.
* Collaborators that are external to this translation unit
  (`fc::raw::pack_size`, `calculate_data_fee`, the `authority` class, the
  configured name-length bounds and reserved identifiers) are passed in as
  parameters, exactly as the spec treats them (opaque collaborators /
  injected configuration).
-/

/-- Lowercase ASCII letter test: the 26 `case 'a'..'z'` arms of the
switches in `is_valid_name`. -/
def is_lowercase_letter (c : Char) : Bool :=
  decide (Char.toNat 'a' ≤ c.toNat) && decide (c.toNat ≤ Char.toNat 'z')

/-- Decimal digit test: the `case '0'..'9'` arms (and the
`c >= '0' && c <= '9'` test of `is_cheap_name`). -/
def is_digit_char (c : Char) : Bool :=
  decide (Char.toNat '0' ≤ c.toNat) && decide (c.toNat ≤ Char.toNat '9')

/-- One dot-separated segment of the scanning loop of `is_valid_name`:
the checks performed for the window `[begin, end)`:
length ≥ 3, `name[begin]` lowercase, `name[end-1]` lowercase or digit,
every interior character lowercase, digit or hyphen. -/
def is_valid_label (l : List Char) : Bool :=
  decide (3 ≤ l.length) &&
  (match l.head? with
   | some c => is_lowercase_letter c
   | none => false) &&
  (match l.getLast? with
   | some c => is_lowercase_letter c || is_digit_char c
   | none => false) &&
  ((l.drop 1).dropLast.all fun c => is_lowercase_letter c || is_digit_char c || c == '-')

/-- The window structure of the `while` loop of `is_valid_name`:
`begin`/`end = find_first_of('.')` splits the name into its dot-separated
labels (consecutive, leading or trailing dots yield empty labels, which
`is_valid_label` rejects via its length check, as `end - begin < 3` does
in the source). -/
def split_labels : List Char → List (List Char)
  | [] => [[]]
  | c :: rest =>
    if c = '.' then [] :: split_labels rest
    else
      match split_labels rest with
      | l :: ls => (c :: l) :: ls
      | [] => [[c]]

/-- `is_valid_name` from `account.cpp`, with the externally configured
bounds `GRAPHENE_MIN_ACCOUNT_NAME_LENGTH` / `GRAPHENE_MAX_ACCOUNT_NAME_LENGTH`
passed as the parameters `min_len` / `max_len` (they live in the chain
configuration header, outside this translation unit). -/
def is_valid_name (min_len max_len : Nat) (name : List Char) : Bool :=
  if name.length < min_len then false
  else if max_len < name.length then false
  else (split_labels name).all is_valid_label

/-- Vowel test of `is_cheap_name` (the `switch` setting `v = true`). -/
def is_vowel (c : Char) : Bool :=
  c == 'a' || c == 'e' || c == 'i' || c == 'o' || c == 'u' || c == 'y'

/-- The character loop of `is_cheap_name`, with the vowel flag `v` as
accumulator: digits and `.`, `-`, `/` return `true` immediately; at the
end of the scan the result is `!v`. -/
def is_cheap_name_scan : List Char → Bool → Bool
  | [], v => !v
  | c :: rest, v =>
    if is_digit_char c then true
    else if c = '.' || c = '-' || c = '/' then true
    else if is_vowel c then is_cheap_name_scan rest true
    else is_cheap_name_scan rest v

/-- `is_cheap_name` from `account.cpp`. -/
def is_cheap_name (n : List Char) : Bool :=
  is_cheap_name_scan n false

/-- The tag carried by a vote identifier (`vote_id_type::type()`).
Modelled from the spec: vote identifiers are tagged `witness` or
`committee`; `worker` stands for the remaining tag of the closed enum,
ignored by this translation unit. -/
inductive vote_tag
  | committee
  | witness
  | worker
deriving DecidableEq, Repr

/-- A vote identifier: its tag plus its instance number (the code here
only ever inspects the tag). -/
structure vote_id_type where
  type : vote_tag
  instance_num : Nat
deriving DecidableEq, Repr

/-- The variants of `account_options::future_extensions`
(`static_variant` over the placeholder `void_t` and
`account_options::ext::vote_committee_size`; the payload of the latter is
never inspected by this translation unit). -/
inductive account_options_ext
  | void_t
  | vote_committee_size
deriving DecidableEq, Repr

/-- `account_options`: the fields read by `account.cpp`. -/
structure account_options where
  num_witness : Nat
  num_committee : Nat
  votes : List vote_id_type
  extensions : List account_options_ext
deriving DecidableEq, Repr

/-- Modelled from the spec: the `authority` class is an opaque
collaborator exposing only `num_auths()`, `address_auths.size()`
(observed here only through emptiness, i.e. `has_address_auths`) and
`is_impossible()`. -/
structure authority where
  num_auths : Nat
  has_address_auths : Bool
  is_impossible : Bool
deriving DecidableEq, Repr

/-- An asset amount; only `fee.amount` (a `share_type`, i.e. `int64_t`)
is read by the validation code. -/
structure asset where
  amount : Int
deriving DecidableEq, Repr

/-- Modelled from the spec: the configuration constants injected from the
chain configuration header (name-length bounds, the percentage full-scale
value `GRAPHENE_100_PERCENT`, and the reserved temporary-account instance
`GRAPHENE_TEMP_ACCOUNT`; the null account identifier is the
default-constructed `account_id_type()`, instance `0`). -/
structure chain_config where
  min_account_name_length : Nat
  max_account_name_length : Nat
  percent_100 : Nat
  temp_account : Nat
deriving DecidableEq, Repr

/-- The for-loop of `account_options::validate`: walks the vote list,
decrementing `needed_witnesses` on a witness-tagged vote while it is
nonzero, else decrementing `needed_committee` on a committee-tagged vote
while it is nonzero. -/
def vote_tally : List vote_id_type → Nat → Nat → Nat × Nat
  | [], needed_witnesses, needed_committee => (needed_witnesses, needed_committee)
  | id :: rest, needed_witnesses, needed_committee =>
    if id.type = vote_tag.witness ∧ needed_witnesses ≠ 0 then
      vote_tally rest (needed_witnesses - 1) needed_committee
    else if id.type = vote_tag.committee ∧ needed_committee ≠ 0 then
      vote_tally rest needed_witnesses (needed_committee - 1)
    else
      vote_tally rest needed_witnesses needed_committee

/-- `account_options::validate`: after the tallying loop both remaining
counters must be zero. -/
def account_options.validate (o : account_options) : Bool :=
  let needed := vote_tally o.votes o.num_witness o.num_committee
  decide (needed.1 = 0 ∧ needed.2 = 0)

/-- Number of witness-tagged entries of a vote list. -/
def witness_vote_count (l : List vote_id_type) : Nat :=
  (l.filter fun id => id.type = vote_tag.witness).length

/-- Number of committee-tagged entries of a vote list. -/
def committee_vote_count (l : List vote_id_type) : Nat :=
  (l.filter fun id => id.type = vote_tag.committee).length

/-- `account_create_operation`: the fields read by `account.cpp`
(`registrar`/`referrer` ids are never inspected by `validate` or
`calculate_fee`). -/
structure account_create_operation where
  fee : asset
  referrer_percent : Nat
  name : List Char
  owner : authority
  active : authority
  options : account_options
deriving DecidableEq, Repr

/-- `account_create_operation::fee_parameters_type`. -/
structure account_create_fee_parameters where
  basic_fee : Int
  premium_fee : Int
  price_per_kbyte : Int
deriving DecidableEq, Repr

/-- `account_create_operation::calculate_fee`; the serialization
collaborator `fc::raw::pack_size` and the base-class helper
`calculate_data_fee` are external, passed as opaque parameters. -/
def account_create_operation.calculate_fee
    (calculate_data_fee : Nat → Int → Int)
    (pack_size : account_create_operation → Nat)
    (op : account_create_operation) (k : account_create_fee_parameters) : Int :=
  let core_fee_required := k.basic_fee
  let core_fee_required := if !is_cheap_name op.name then k.premium_fee else core_fee_required
  let data_fee := calculate_data_fee (pack_size op) k.price_per_kbyte
  core_fee_required + data_fee

/-- `account_create_operation_options_ext_validate_visitor`: `void_t`
passes, `vote_committee_size` hits `FC_ASSERT(false)`. -/
def account_create_operation_options_ext_validate_visitor : account_options_ext → Bool
  | account_options_ext.void_t => true
  | account_options_ext.vote_committee_size => false

/-- `account_create_operation::validate` (each conjunct is one
`FC_ASSERT`, in source order; the trailing conjunct is the dispatch of
`options.extensions` through the create-options visitor). -/
def account_create_operation.validate (cfg : chain_config) (op : account_create_operation) : Bool :=
  decide (0 ≤ op.fee.amount) &&
  is_valid_name cfg.min_account_name_length cfg.max_account_name_length op.name &&
  decide (op.referrer_percent ≤ cfg.percent_100) &&
  decide (op.owner.num_auths ≠ 0) &&
  !op.owner.has_address_auths &&
  decide (op.active.num_auths ≠ 0) &&
  !op.active.has_address_auths &&
  !op.owner.is_impossible &&
  !op.active.is_impossible &&
  op.options.validate &&
  op.options.extensions.all account_create_operation_options_ext_validate_visitor

/-- The variants of `account_update_operation::future_extensions`
(`void_t`, `ext::create_committee`, `ext::update_committee`; committee
sizes are `uint16_t`, the optional fields `fc::optional`). -/
inductive account_update_operation_ext
  | void_t
  | create_committee (min_committee_size max_committee_size : Nat)
  | update_committee (min_committee_size max_committee_size : Option Nat)
deriving DecidableEq, Repr

/-- `account_update_operation`: the fields read by `account.cpp`; the
target `account` identifier is its instance number. -/
structure account_update_operation where
  fee : asset
  account : Nat
  owner : Option authority
  active : Option authority
  new_options : Option account_options
  extensions : List account_update_operation_ext
deriving DecidableEq, Repr

/-- `account_update_operation::fee_parameters_type`. -/
structure account_update_fee_parameters where
  fee : Int
  price_per_kbyte : Int
deriving DecidableEq, Repr

/-- `account_update_operation::calculate_fee`: the flat fee, plus the
data fee only when `new_options` is present. -/
def account_update_operation.calculate_fee
    (calculate_data_fee : Nat → Int → Int)
    (pack_size : account_update_operation → Nat)
    (op : account_update_operation) (k : account_update_fee_parameters) : Int :=
  let core_fee_required := k.fee
  let core_fee_required :=
    if op.new_options.isSome then
      core_fee_required + calculate_data_fee (pack_size op) k.price_per_kbyte
    else core_fee_required
  core_fee_required

/-- `account_update_operation_options_ext_validate_visitor`: both
`void_t` and `vote_committee_size` pass (the latter's validation is a
`TODO` in the source). -/
def account_update_operation_options_ext_validate_visitor : account_options_ext → Bool
  | account_options_ext.void_t => true
  | account_options_ext.vote_committee_size => true

/-- `account_update_operation_ext_validate_visitor`: `void_t` passes;
`create_committee` requires `min > 0`, `max > 0`, `min ≤ max`;
`update_committee` checks each optional field that is present to be
`> 0` and, when both are present, `min ≤ max`. -/
def account_update_operation_ext_validate_visitor : account_update_operation_ext → Bool
  | account_update_operation_ext.void_t => true
  | account_update_operation_ext.create_committee mn mx =>
    decide (0 < mn) && decide (0 < mx) && decide (mn ≤ mx)
  | account_update_operation_ext.update_committee mn mx =>
    (match mn with
     | some m => decide (0 < m)
     | none => true) &&
    (match mx with
     | some m => decide (0 < m)
     | none => true) &&
    (match mn, mx with
     | some m, some x => decide (m ≤ x)
     | _, _ => true)

/-- The three authority `FC_ASSERT`s shared by the `if (owner)` /
`if (active)` blocks of `account_update_operation::validate`. -/
def authority_checks (a : authority) : Bool :=
  decide (a.num_auths ≠ 0) && !a.has_address_auths && !a.is_impossible

/-- `account_update_operation::validate` (each conjunct one `FC_ASSERT`
or one conditional block, in source order). -/
def account_update_operation.validate (cfg : chain_config) (op : account_update_operation) : Bool :=
  decide (op.account ≠ cfg.temp_account) &&
  decide (0 ≤ op.fee.amount) &&
  decide (op.account ≠ 0) &&
  (op.owner.isSome || op.active.isSome || op.new_options.isSome) &&
  (match op.owner with
   | some a => authority_checks a
   | none => true) &&
  (match op.active with
   | some a => authority_checks a
   | none => true) &&
  (match op.new_options with
   | some no => no.validate && no.extensions.all account_update_operation_options_ext_validate_visitor
   | none => true) &&
  op.extensions.all account_update_operation_ext_validate_visitor

/-- The tallying loop leaves exactly `num - min num count` of each
needed-counter: extra votes of a tag are ignored once the counter hits
zero, and votes of other tags never touch it. -/
lemma vote_tally_eq (l : List vote_id_type) :
    ∀ nw nc, vote_tally l nw nc =
      (nw - min nw (witness_vote_count l), nc - min nc (committee_vote_count l)) := by
  induction l with
  | nil =>
    intro nw nc
    simp [vote_tally, witness_vote_count, committee_vote_count]
  | cons id rest ih =>
    intro nw nc
    cases hty : id.type with
    | committee =>
      by_cases hnc : nc = 0
      · simp [vote_tally, hty, hnc, ih, witness_vote_count, committee_vote_count,
          List.filter_cons, Prod.ext_iff]
      · simp [vote_tally, hty, hnc, ih, witness_vote_count, committee_vote_count,
          List.filter_cons, Prod.ext_iff]
        omega
    | witness =>
      by_cases hnw : nw = 0
      · simp [vote_tally, hty, hnw, ih, witness_vote_count, committee_vote_count,
          List.filter_cons, Prod.ext_iff]
      · simp [vote_tally, hty, hnw, ih, witness_vote_count, committee_vote_count,
          List.filter_cons, Prod.ext_iff]
        omega
    | worker =>
      simp [vote_tally, hty, ih, witness_vote_count, committee_vote_count,
        List.filter_cons, Prod.ext_iff]

/-- Characterization of `account_options::validate`: it succeeds exactly
when the vote list contains at least `num_witness` witness-tagged and at
least `num_committee` committee-tagged entries. -/
lemma account_options_validate_iff (o : account_options) :
    o.validate = true ↔
      o.num_witness ≤ witness_vote_count o.votes ∧
      o.num_committee ≤ committee_vote_count o.votes := by
  simp only [account_options.validate, vote_tally_eq, decide_eq_true_eq]
  omega

/-- C1 counterexample: the claim predicts success whenever the
witness/committee tallies do not exceed `num_witness`/`num_committee`.
For `num_witness = 1` with an empty vote list the tallies are `0 ≤ 1`
and `0 ≤ 0`, yet `account_options::validate` fails (the loop leaves
`needed_witnesses = 1` and the `FC_ASSERT` fires). -/
theorem c1_counterexample :
    witness_vote_count (account_options.mk 1 0 [] []).votes ≤
      (account_options.mk 1 0 [] []).num_witness ∧
    committee_vote_count (account_options.mk 1 0 [] []).votes ≤
      (account_options.mk 1 0 [] []).num_committee ∧
    (account_options.mk 1 0 [] []).validate = false := by decide

/-- C1 (amended): `account_options::validate` succeeds if and only if
the number of witness-tagged entries in `votes` is AT LEAST
`num_witness` and the number of committee-tagged entries is at least
`num_committee` (surplus votes of either tag are allowed); otherwise it
fails with a ValidationError. -/
theorem c1_account_options_validate_iff_counts (o : account_options) :
    o.validate = true ↔
      o.num_witness ≤ witness_vote_count o.votes ∧
      o.num_committee ≤ committee_vote_count o.votes :=
  account_options_validate_iff o

/-- C10: the outcome of `account_options::validate` depends only on
`num_witness`, `num_committee` and the number of witness-tagged and
committee-tagged entries in `votes`; identifiers of other tags and the
instance numbers are irrelevant, and each list entry counts, so any two
vote lists with the same two tallies validate identically. -/
theorem c10_validate_depends_only_on_counts (o o2 : account_options)
    (hw : o.num_witness = o2.num_witness)
    (hc : o.num_committee = o2.num_committee)
    (hwc : witness_vote_count o.votes = witness_vote_count o2.votes)
    (hcc : committee_vote_count o.votes = committee_vote_count o2.votes) :
    o.validate = o2.validate := by
  simp only [account_options.validate, vote_tally_eq, hw, hc, hwc, hcc]

/-- C10 witness: two concrete options with different vote lists (other
order, a worker-tagged vote, different instance numbers) but equal
witness/committee tallies validate identically. -/
theorem c10_witness :
    witness_vote_count [vote_id_type.mk vote_tag.witness 0,
        vote_id_type.mk vote_tag.committee 3, vote_id_type.mk vote_tag.worker 9] =
      witness_vote_count [vote_id_type.mk vote_tag.committee 7,
        vote_id_type.mk vote_tag.witness 5] ∧
    (account_options.mk 1 1 [vote_id_type.mk vote_tag.witness 0,
        vote_id_type.mk vote_tag.committee 3, vote_id_type.mk vote_tag.worker 9] []).validate =
      (account_options.mk 1 1 [vote_id_type.mk vote_tag.committee 7,
        vote_id_type.mk vote_tag.witness 5] []).validate :=
  ⟨by decide,
    c10_validate_depends_only_on_counts _ _ rfl rfl (by decide) (by decide)⟩

/-- A digit or one of `.`, `-`, `/` makes the scan of `is_cheap_name`
return `true` at once, whatever the vowel flag. -/
lemma is_cheap_name_scan_stop (c : Char) (suf : List Char) (v : Bool)
    (hc : is_digit_char c = true ∨ c = '.' ∨ c = '-' ∨ c = '/') :
    is_cheap_name_scan (c :: suf) v = true := by
  rcases hc with h | h | h | h
  · simp [is_cheap_name_scan, h]
  · subst h
    simp only [is_cheap_name_scan]
    rw [if_neg (by decide), if_pos (by decide)]
  · subst h
    simp only [is_cheap_name_scan]
    rw [if_neg (by decide), if_pos (by decide)]
  · subst h
    simp only [is_cheap_name_scan]
    rw [if_neg (by decide), if_pos (by decide)]

/-- The early return of `is_cheap_name` fires regardless of what
precedes or follows the digit/punctuation character. -/
lemma is_cheap_name_scan_append (pre : List Char) :
    ∀ v c suf, (is_digit_char c = true ∨ c = '.' ∨ c = '-' ∨ c = '/') →
      is_cheap_name_scan (pre ++ c :: suf) v = true := by
  induction pre with
  | nil =>
    intro v c suf hc
    exact is_cheap_name_scan_stop c suf v hc
  | cons d rest ih =>
    intro v c suf hc
    simp only [List.cons_append, is_cheap_name_scan]
    split
    · rfl
    · split
      · rfl
      · split
        · exact ih true c suf hc
        · exact ih v c suf hc

/-- On a string with no digit and no `.`, `-`, `/` the scan completes
and returns `true` exactly when the vowel flag stays unset. -/
lemma is_cheap_name_scan_no_stop (n : List Char)
    (h : ∀ c ∈ n, is_digit_char c = false ∧ c ≠ '.' ∧ c ≠ '-' ∧ c ≠ '/') :
    ∀ v, is_cheap_name_scan n v = (!v && n.all fun c => !is_vowel c) := by
  induction n with
  | nil =>
    intro v
    simp [is_cheap_name_scan]
  | cons c rest ih =>
    intro v
    obtain ⟨hd, hp1, hp2, hp3⟩ := h c (List.mem_cons_self c rest)
    have hrest := fun x hx => h x (List.mem_cons_of_mem c hx)
    cases hv : is_vowel c <;>
      simp [is_cheap_name_scan, hd, hp1, hp2, hp3, hv, ih hrest]

/-- C4: `is_cheap_name` returns `true` as soon as it meets a decimal
digit or one of `.`, `-`, `/`, without examining the rest of the string
(the suffix is arbitrary); if no such character occurs, it returns
`true` exactly when the string contains no vowel from a,e,i,o,u,y.
The documented examples "ab1", "bcd", "cat" behave as stated. -/
theorem c4_is_cheap_name_characterization :
    (∀ pre c suf, (is_digit_char c = true ∨ c = '.' ∨ c = '-' ∨ c = '/') →
        is_cheap_name (pre ++ c :: suf) = true) ∧
    (∀ n, (∀ c ∈ n, is_digit_char c = false ∧ c ≠ '.' ∧ c ≠ '-' ∧ c ≠ '/') →
        (is_cheap_name n = true ↔ ∀ c ∈ n, is_vowel c = false)) ∧
    is_cheap_name "ab1".toList = true ∧
    is_cheap_name "bcd".toList = true ∧
    is_cheap_name "cat".toList = false := by
  refine ⟨?_, ?_, by decide, by decide, by decide⟩
  · intro pre c suf hc
    exact is_cheap_name_scan_append pre false c suf hc
  · intro n hn
    rw [is_cheap_name, is_cheap_name_scan_no_stop n hn false]
    simp [List.all_eq_true]

/-- C4 witness: the short-circuit branch of the theorem applied at a
concrete string whose digit precedes a vowel. -/
theorem c4_witness :
    (is_digit_char '1' = true ∨ '1' = '.' ∨ '1' = '-' ∨ '1' = '/') ∧
    is_cheap_name (['z'] ++ '1' :: ['a']) = true :=
  ⟨Or.inl (by decide),
    c4_is_cheap_name_characterization.1 ['z'] '1' ['a'] (Or.inl (by decide))⟩

/-- Spec-side character class: lowercase ASCII letter. -/
abbrev lowercase_spec (c : Char) : Prop :=
  Char.toNat 'a' ≤ c.toNat ∧ c.toNat ≤ Char.toNat 'z'

/-- Spec-side character class: decimal digit. -/
abbrev digit_spec (c : Char) : Prop :=
  Char.toNat '0' ≤ c.toNat ∧ c.toNat ≤ Char.toNat '9'

lemma is_lowercase_letter_iff (c : Char) :
    is_lowercase_letter c = true ↔ lowercase_spec c := by
  simp [is_lowercase_letter, lowercase_spec]

lemma is_digit_char_iff (c : Char) :
    is_digit_char c = true ↔ digit_spec c := by
  simp [is_digit_char, digit_spec]

/-- The label grammar exactly as the spec words it: length at least
three, first character a lowercase letter, last character a lowercase
letter or digit, every interior character a lowercase letter, digit or
hyphen. Stated propositionally, independently of the scanning code, for
comparison against `is_valid_label`. -/
def spec_label_ok (l : List Char) : Prop :=
  3 ≤ l.length ∧
  (∃ c, l.head? = some c ∧ lowercase_spec c) ∧
  (∃ c, l.getLast? = some c ∧ (lowercase_spec c ∨ digit_spec c)) ∧
  ∀ c ∈ (l.drop 1).dropLast, lowercase_spec c ∨ digit_spec c ∨ c = '-'

/-- The per-label checks of the scanning loop coincide with the spec's
label grammar. -/
lemma is_valid_label_iff_spec (l : List Char) :
    is_valid_label l = true ↔ spec_label_ok l := by
  cases l with
  | nil => simp [is_valid_label, spec_label_ok]
  | cons a t =>
    have hg : (a :: t).getLast? = some ((a :: t).getLast (by simp)) :=
      List.getLast?_eq_getLast _ (by simp)
    simp [is_valid_label, spec_label_ok, hg, is_lowercase_letter_iff, is_digit_char_iff,
      List.all_eq_true, and_assoc, or_assoc]

/-- The scanning loop always produces at least one label (an empty name
yields the single empty label). -/
lemma split_labels_ne_nil (l : List Char) : split_labels l ≠ [] := by
  cases l with
  | nil => simp [split_labels]
  | cons c rest =>
    simp only [split_labels]
    split
    · simp
    · split
      · simp
      · simp

/-- Every non-dot character of a name lies inside one of its labels. -/
lemma exists_label_of_mem (name : List Char) (c : Char) (hc : c ∈ name) (hdot : c ≠ '.') :
    ∃ l ∈ split_labels name, c ∈ l := by
  induction name with
  | nil => cases hc
  | cons a rest ih =>
    rcases List.mem_cons.mp hc with rfl | hmem
    · simp only [split_labels, if_neg hdot]
      cases hsp : split_labels rest with
      | nil => exact absurd hsp (split_labels_ne_nil rest)
      | cons l ls =>
        exact ⟨c :: l, List.mem_cons_self _ _, List.mem_cons_self _ _⟩
    · obtain ⟨l, hl, hcl⟩ := ih hmem
      by_cases ha : a = '.'
      · subst ha
        simp only [split_labels, if_pos rfl]
        exact ⟨l, List.mem_cons_of_mem _ hl, hcl⟩
      · simp only [split_labels, if_neg ha]
        cases hsp : split_labels rest with
        | nil => exact absurd hsp (split_labels_ne_nil rest)
        | cons l0 ls =>
          rw [hsp] at hl
          rcases List.mem_cons.mp hl with rfl | hls
          · exact ⟨a :: l, List.mem_cons_self _ _, List.mem_cons_of_mem _ hcl⟩
          · exact ⟨l, List.mem_cons_of_mem _ hls, hcl⟩

/-- Every character of a label passing the scanning loop's checks is a
lowercase letter, a digit, or a hyphen. -/
lemma valid_label_chars (l : List Char) (h : is_valid_label l = true) :
    ∀ c ∈ l, (is_lowercase_letter c || is_digit_char c || c == '-') = true := by
  intro c hc
  cases l with
  | nil => cases hc
  | cons a t =>
    cases t with
    | nil => simp [is_valid_label] at h
    | cons b t' =>
      simp only [is_valid_label, Bool.and_eq_true] at h
      obtain ⟨⟨⟨hlen, hfirst⟩, hlast⟩, hint⟩ := h
      have hne : (b :: t') ≠ ([] : List Char) := by simp
      rcases List.mem_cons.mp hc with rfl | hct
      · have hf : is_lowercase_letter c = true := hfirst
        simp [hf]
      · rw [← List.dropLast_append_getLast hne] at hct
        rcases List.mem_append.mp hct with hdl | hlast_mem
        · have hmem2 : c ∈ ((a :: b :: t').drop 1).dropLast := by simpa using hdl
          have := (List.all_eq_true.mp hint) c hmem2
          simpa using this
        · have hc_eq : c = (b :: t').getLast hne := by simpa using hlast_mem
          have hgl : (a :: b :: t').getLast? = some c := by
            rw [hc_eq, List.getLast?_cons_cons, List.getLast?_eq_getLast (b :: t') hne]
          rw [hgl] at hlast
          have hl2 : (is_lowercase_letter c || is_digit_char c) = true := hlast
          simp only [Bool.or_eq_true] at hl2 ⊢
          tauto

/-- C2 (amended): for every name whose length lies within the configured
`[MIN, MAX]` bounds, `is_valid_name` is true iff every dot-separated
label satisfies the spec's label grammar; an uppercase character
anywhere makes it false unconditionally; and the four documented
examples hold (under the spec's constraint that the configured minimum
is at least 3; shown here at bounds 3 and 63). -/
theorem c2_is_valid_name_grammar :
    (∀ min_len max_len name, min_len ≤ name.length → name.length ≤ max_len →
        (is_valid_name min_len max_len name = true ↔
          ∀ l ∈ split_labels name, spec_label_ok l)) ∧
    (∀ min_len max_len name c, c ∈ name →
        Char.toNat 'A' ≤ c.toNat → c.toNat ≤ Char.toNat 'Z' →
        is_valid_name min_len max_len name = false) ∧
    is_valid_name 3 63 "ab".toList = false ∧
    is_valid_name 3 63 "my-account".toList = true ∧
    is_valid_name 3 63 "a..b".toList = false ∧
    is_valid_name 3 63 "My.Account".toList = false := by
  refine ⟨?_, ?_, by decide, by decide, by decide, by decide⟩
  · intro mn mx name h1 h2
    rw [is_valid_name, if_neg (by omega), if_neg (by omega)]
    simp [List.all_eq_true, is_valid_label_iff_spec]
  · intro mn mx name c hc hA hZ
    rw [is_valid_name]
    split
    · rfl
    · split
      · rfl
      · have hdot : c ≠ '.' := by
          intro he
          subst he
          exact absurd hA (by decide)
        obtain ⟨l, hl, hcl⟩ := exists_label_of_mem name c hc hdot
        cases hAll : (split_labels name).all is_valid_label with
        | false => rfl
        | true =>
          exfalso
          have hv := List.all_eq_true.mp hAll l hl
          have hchar := valid_label_chars l hv c hcl
          simp only [is_lowercase_letter, is_digit_char, Bool.or_eq_true, Bool.and_eq_true,
            decide_eq_true_eq, beq_iff_eq] at hchar
          have eA : Char.toNat 'A' = 65 := rfl
          have eZ : Char.toNat 'Z' = 90 := rfl
          have ea : Char.toNat 'a' = 97 := rfl
          have ez : Char.toNat 'z' = 122 := rfl
          have e0 : Char.toNat '0' = 48 := rfl
          have e9 : Char.toNat '9' = 57 := rfl
          rcases hchar with (hlow | hdig) | hhyp
          · omega
          · omega
          · subst hhyp
            exact absurd hA (by decide)

/-- C2 counterexample: the claim as stated quantifies over every string,
but a 64-character name all of whose labels satisfy the grammar is
rejected by the length bound (shown at the configured maximum 63): the
claimed equivalence fails there. -/
theorem c2_counterexample :
    is_valid_name 3 63 (List.replicate 64 'a') = false ∧
    ∀ l ∈ split_labels (List.replicate 64 'a'), spec_label_ok l := by
  constructor
  · decide
  · intro l hl
    have hsp : split_labels (List.replicate 64 'a') = [List.replicate 64 'a'] := by decide
    rw [hsp] at hl
    simp only [List.mem_singleton] at hl
    subst hl
    refine ⟨by simp, ⟨'a', by decide, by decide⟩, ⟨'a', by decide, by decide⟩, ?_⟩
    intro c hc
    have hdl : ((List.replicate 64 'a').drop 1).dropLast = List.replicate 62 'a' := by decide
    rw [hdl] at hc
    have : c = 'a' := List.eq_of_mem_replicate hc
    subst this
    left
    decide

/-- C2 witness: the grammar equivalence of the amended claim,
instantiated at the in-bounds name "my-account". -/
theorem c2_witness :
    (3 ≤ ("my-account".toList).length ∧ ("my-account".toList).length ≤ 63) ∧
    (is_valid_name 3 63 "my-account".toList = true ↔
      ∀ l ∈ split_labels "my-account".toList, spec_label_ok l) :=
  ⟨⟨by decide, by decide⟩,
    c2_is_valid_name_grammar.1 3 63 "my-account".toList (by decide) (by decide)⟩

/-- C5: the creation fee is the cheap/premium base fee selected by
`is_cheap_name` plus the data fee computed by the external
`calculate_data_fee` from the serialized size of the operation and
`price_per_kbyte`. -/
theorem c5_create_fee_formula (calculate_data_fee : Nat → Int → Int)
    (pack_size : account_create_operation → Nat)
    (op : account_create_operation) (k : account_create_fee_parameters) :
    account_create_operation.calculate_fee calculate_data_fee pack_size op k =
      (if is_cheap_name op.name then k.basic_fee else k.premium_fee) +
      calculate_data_fee (pack_size op) k.price_per_kbyte := by
  unfold account_create_operation.calculate_fee
  cases h : is_cheap_name op.name <;> simp [h]

/-- C6: the update fee is the flat schedule fee, plus the size-dependent
data fee exactly when a new-options payload is present. -/
theorem c6_update_fee_formula (calculate_data_fee : Nat → Int → Int)
    (pack_size : account_update_operation → Nat)
    (op : account_update_operation) (k : account_update_fee_parameters) :
    account_update_operation.calculate_fee calculate_data_fee pack_size op k =
      k.fee + (if op.new_options.isSome then
        calculate_data_fee (pack_size op) k.price_per_kbyte else 0) := by
  unfold account_update_operation.calculate_fee
  cases h : op.new_options.isSome <;> simp [h]

/-- C7: operation-level extension dispatch — `create_committee` passes
iff both sizes are positive and min ≤ max; `update_committee` checks
each present optional field for positivity and, when both are present,
the ordering; the placeholder always passes; and the three documented
examples hold. -/
theorem c7_update_op_ext_rules :
    (∀ mn mx, account_update_operation_ext_validate_visitor
        (account_update_operation_ext.create_committee mn mx) = true ↔
        (0 < mn ∧ 0 < mx ∧ mn ≤ mx)) ∧
    (∀ mn mx, account_update_operation_ext_validate_visitor
        (account_update_operation_ext.update_committee mn mx) = true ↔
        (mn.elim True (fun m => 0 < m) ∧ mx.elim True (fun m => 0 < m) ∧
         mn.elim True (fun m => mx.elim True (fun x => m ≤ x)))) ∧
    account_update_operation_ext_validate_visitor account_update_operation_ext.void_t = true ∧
    account_update_operation_ext_validate_visitor
      (account_update_operation_ext.create_committee 0 5) = false ∧
    account_update_operation_ext_validate_visitor
      (account_update_operation_ext.create_committee 5 3) = false ∧
    account_update_operation_ext_validate_visitor
      (account_update_operation_ext.create_committee 3 5) = true := by
  refine ⟨?_, ?_, by decide, by decide, by decide, by decide⟩
  · intro mn mx
    simp [account_update_operation_ext_validate_visitor, and_assoc]
  · intro mn mx
    cases mn <;> cases mx <;>
      simp [account_update_operation_ext_validate_visitor, and_assoc]

/-- C9: names shorter than the configured minimum or longer than the
configured maximum are rejected by `is_valid_name`, for every choice of
the configured bounds. -/
theorem c9_is_valid_name_length_bounds (min_len max_len : Nat) (name : List Char)
    (h : name.length < min_len ∨ max_len < name.length) :
    is_valid_name min_len max_len name = false := by
  unfold is_valid_name
  rcases h with h | h
  · rw [if_pos h]
  · by_cases h2 : name.length < min_len
    · rw [if_pos h2]
    · rw [if_neg h2, if_pos h]

/-- C9 witness: the two-character name "ab" is below the configured
minimum 3 and is rejected. -/
theorem c9_witness :
    ("ab".toList.length < 3 ∨ 63 < "ab".toList.length) ∧
    is_valid_name 3 63 "ab".toList = false :=
  ⟨Or.inl (by decide),
    c9_is_valid_name_length_bounds 3 63 "ab".toList (Or.inl (by decide))⟩

/-- C8: in creation-time options, the placeholder extension passes the
visitor, the `vote_committee_size` variant fails it, and any operation
whose creation options carry a non-placeholder extension fails
`account_create_operation::validate` outright, for every configuration. -/
theorem c8_create_options_ext_rejected :
    account_create_operation_options_ext_validate_visitor account_options_ext.void_t = true ∧
    account_create_operation_options_ext_validate_visitor
      account_options_ext.vote_committee_size = false ∧
    ∀ cfg op e, e ∈ op.options.extensions → e ≠ account_options_ext.void_t →
      account_create_operation.validate cfg op = false := by
  refine ⟨rfl, rfl, ?_⟩
  intro cfg op e he hne
  have hext : op.options.extensions.all
      account_create_operation_options_ext_validate_visitor = false := by
    cases hAll : op.options.extensions.all account_create_operation_options_ext_validate_visitor
    · rfl
    · exfalso
      have := List.all_eq_true.mp hAll e he
      cases e with
      | void_t => exact hne rfl
      | vote_committee_size => exact absurd this (by decide)
  unfold account_create_operation.validate
  rw [hext]
  simp

/-- C8 witness: a concrete creation operation whose options carry a
`vote_committee_size` extension is rejected. -/
theorem c8_witness :
    account_create_operation.validate (chain_config.mk 3 63 10000 4)
      (account_create_operation.mk (asset.mk 0) 0 "abc".toList
        (authority.mk 1 false false) (authority.mk 1 false false)
        (account_options.mk 0 0 [] [account_options_ext.vote_committee_size])) = false :=
  c8_create_options_ext_rejected.2.2 _ _ account_options_ext.vote_committee_size
    (by decide) (by decide)

/-- C3 counterexample: an update operation with exactly one of owner,
active, new_options present (a new_options value that passes its own
sub-checks and carries no extensions) but a negative fee: the claim
predicts success, yet `validate()` fails on the fee assertion. -/
theorem c3_counterexample :
    (account_update_operation.mk (asset.mk (-1)) 5 none none
        (some (account_options.mk 0 0 [] [])) []).owner = none ∧
    (account_update_operation.mk (asset.mk (-1)) 5 none none
        (some (account_options.mk 0 0 [] [])) []).active = none ∧
    (account_update_operation.mk (asset.mk (-1)) 5 none none
        (some (account_options.mk 0 0 [] [])) []).new_options =
      some (account_options.mk 0 0 [] []) ∧
    (account_options.mk 0 0 [] []).validate = true ∧
    account_update_operation.validate (chain_config.mk 3 63 10000 4)
      (account_update_operation.mk (asset.mk (-1)) 5 none none
        (some (account_options.mk 0 0 [] [])) []) = false := by decide

/-- C3 (amended): update validation fails when the target equals the
reserved temporary account; fails when none of owner, active,
new_options is present; and succeeds when at least one (in particular
exactly one) of them is present and every present one passes its own
sub-checks, provided additionally that the fee is non-negative, the
target is neither the temporary nor the null account, and every
operation-level extension passes its dispatch. -/
theorem c3_update_validate_rules :
    (∀ cfg op, op.account = cfg.temp_account →
        account_update_operation.validate cfg op = false) ∧
    (∀ cfg op, op.owner = none → op.active = none → op.new_options = none →
        account_update_operation.validate cfg op = false) ∧
    (∀ cfg op, op.account ≠ cfg.temp_account → 0 ≤ op.fee.amount → op.account ≠ 0 →
        (∀ e ∈ op.extensions, account_update_operation_ext_validate_visitor e = true) →
        (op.owner.isSome ∨ op.active.isSome ∨ op.new_options.isSome) →
        (∀ a, op.owner = some a → authority_checks a = true) →
        (∀ a, op.active = some a → authority_checks a = true) →
        (∀ no, op.new_options = some no → no.validate = true ∧
          ∀ e ∈ no.extensions,
            account_update_operation_options_ext_validate_visitor e = true) →
        account_update_operation.validate cfg op = true) := by
  refine ⟨?_, ?_, ?_⟩
  · intro cfg op h
    simp [account_update_operation.validate, h]
  · intro cfg op h1 h2 h3
    simp [account_update_operation.validate, h1, h2, h3]
  · intro cfg op h1 h2 h3 hext hpresent hown hact hopt
    cases hO : op.owner <;> cases hA : op.active <;> cases hN : op.new_options <;>
      simp_all [account_update_operation.validate, List.all_eq_true]

/-- C3 witness: a concrete update with only a passing new_options
present, non-negative fee and non-reserved target validates. -/
theorem c3_witness :
    account_update_operation.validate (chain_config.mk 3 63 10000 4)
      (account_update_operation.mk (asset.mk 0) 5 none none
        (some (account_options.mk 0 0 [] [])) []) = true :=
  c3_update_validate_rules.2.2 _ _ (by decide) (by decide) (by decide) (by simp)
    (by simp) (by simp) (by simp)
    (fun no h => by cases h; exact ⟨by decide, by simp⟩)
